import Mathlib

/-!
Verification of the Solracer two-party wagering escrow state machine
(src/solracer-program/programs/solracer-program/src/lib.rs).

The five Anchor instruction handlers (create_race, join_race, submit_result,
settle_race, claim_prize) are embedded as pure Lean functions over an explicit
Race state. Pubkeys are modelled as natural numbers, u64 fields as Nat, i64 as
Int, and the 32-byte input hash as a list of bytes. A failed instruction aborts
the whole transaction on Solana, so a failing operation leaves the race record
unchanged; runOp captures that atomicity. The player2.unwrap() calls in
settle_race are modelled by a distinguished panicked outcome.
-/

namespace Solracer

/-- Error codes of the program, from the SolracerError enum in lib.rs. -/
inductive SolracerError where
  | InvalidRaceStatus
  | Player2AlreadySet
  | PlayerNotInRace
  | ResultAlreadySubmitted
  | ResultsNotComplete
  | NotWinner
  deriving DecidableEq, Repr

/-- Outcome of one instruction: success, a program error (require! failure),
or a Rust panic (transaction abort without a program error code). -/
inductive TxOutcome (α : Type) where
  | ok (value : α)
  | err (e : SolracerError)
  | panicked
  deriving DecidableEq, Repr

/-- Race lifecycle status, from the RaceStatus enum in lib.rs. -/
inductive RaceStatus where
  | Waiting
  | Active
  | Settled
  deriving DecidableEq, Repr

/-- A submitted race result, from the RaceResult struct in lib.rs. -/
structure RaceResult where
  finish_time_ms : Nat
  coins_collected : Nat
  input_hash : List Nat
  deriving DecidableEq, Repr

/-- The Race account record, from the Race struct in lib.rs. -/
structure Race where
  race_id : String
  token_mint : Nat
  entry_fee_sol : Nat
  player1 : Nat
  player2 : Option Nat
  status : RaceStatus
  player1_result : Option RaceResult
  player2_result : Option RaceResult
  winner : Option Nat
  escrow_amount : Nat
  created_at : Int
  bump : Nat
  deriving DecidableEq, Repr

/-- create_race from lib.rs: initialises the race record with status Waiting,
player1 as the caller, and escrow_amount = entry_fee_sol (the entry fee is
transferred to the PDA by the runtime). The handler body performs no
validation and always returns Ok. -/
def create_race (race_id : String) (token_mint : Nat) (entry_fee_sol : Nat)
    (player1 : Nat) (now : Int) (bump : Nat) : TxOutcome Race :=
  TxOutcome.ok
    { race_id := race_id
      token_mint := token_mint
      entry_fee_sol := entry_fee_sol
      player1 := player1
      player2 := none
      status := RaceStatus.Waiting
      player1_result := none
      player2_result := none
      winner := none
      escrow_amount := entry_fee_sol
      created_at := now
      bump := bump }

/-- join_race from lib.rs: requires status Waiting and player2 unset, then
records player2, moves to Active and adds the entry fee to the escrow. -/
def join_race (r : Race) (player2 : Nat) : TxOutcome Race :=
  if r.status = RaceStatus.Waiting then
    if r.player2.isNone then
      TxOutcome.ok
        { r with
          player2 := some player2
          status := RaceStatus.Active
          escrow_amount := r.escrow_amount + r.entry_fee_sol }
    else TxOutcome.err SolracerError.Player2AlreadySet
  else TxOutcome.err SolracerError.InvalidRaceStatus

/-- The is_player1 test in submit_result: caller key equals race.player1. -/
def is_player1 (r : Race) (player : Nat) : Bool :=
  player == r.player1

/-- The is_player2 test in submit_result:
race.player2.map(|p2| caller == p2).unwrap_or(false). -/
def is_player2 (r : Race) (player : Nat) : Bool :=
  (r.player2.map (fun p2 => player == p2)).getD false

/-- submit_result from lib.rs: requires status Active and the caller to be a
participant, then stores the result in the slot of the caller (the player1 slot when
is_player1 holds, else the player2 slot), failing if that slot is already populated. -/
def submit_result (r : Race) (player : Nat) (finish_time_ms : Nat)
    (coins_collected : Nat) (input_hash : List Nat) : TxOutcome Race :=
  if r.status = RaceStatus.Active then
    if is_player1 r player || is_player2 r player then
      let result : RaceResult :=
        { finish_time_ms := finish_time_ms
          coins_collected := coins_collected
          input_hash := input_hash }
      if is_player1 r player then
        if r.player1_result.isNone then
          TxOutcome.ok { r with player1_result := some result }
        else TxOutcome.err SolracerError.ResultAlreadySubmitted
      else
        if r.player2_result.isNone then
          TxOutcome.ok { r with player2_result := some result }
        else TxOutcome.err SolracerError.ResultAlreadySubmitted
    else TxOutcome.err SolracerError.PlayerNotInRace
  else TxOutcome.err SolracerError.InvalidRaceStatus

/-- settle_race from lib.rs: requires status Active and both results present,
then picks the winner (lower finish_time_ms; on a tie, player1 when its
coins_collected is at least that of player2) and moves to Settled. The branches taking
race.player2.unwrap() panic when player2 is None. -/
def settle_race (r : Race) : TxOutcome Race :=
  if r.status = RaceStatus.Active then
    match r.player1_result, r.player2_result with
    | some player1_result, some player2_result =>
      let winner : Option Nat :=
        if player1_result.finish_time_ms < player2_result.finish_time_ms then
          some r.player1
        else if player2_result.finish_time_ms < player1_result.finish_time_ms then
          r.player2
        else if player1_result.coins_collected ≥ player2_result.coins_collected then
          some r.player1
        else
          r.player2
      match winner with
      | some w =>
        TxOutcome.ok { r with winner := some w, status := RaceStatus.Settled }
      | none => TxOutcome.panicked
    | _, _ => TxOutcome.err SolracerError.ResultsNotComplete
  else TxOutcome.err SolracerError.InvalidRaceStatus

/-- claim_prize from lib.rs: requires status Settled and the caller to equal
the stored winner, then pays out the whole escrow_amount and zeroes it. The
second component of the result is the prize_amount transferred. -/
def claim_prize (r : Race) (winner : Nat) : TxOutcome (Race × Nat) :=
  if r.status = RaceStatus.Settled then
    if r.winner = some winner then
      let prize_amount := r.escrow_amount
      TxOutcome.ok ({ r with escrow_amount := 0 }, prize_amount)
    else TxOutcome.err SolracerError.NotWinner
  else TxOutcome.err SolracerError.InvalidRaceStatus

/-- One instruction applied to an existing race account, with its arguments. -/
inductive Op where
  | join (player2 : Nat)
  | submit (player finish_time_ms coins_collected : Nat) (input_hash : List Nat)
  | settle
  | claim (winner : Nat)
  deriving DecidableEq, Repr

/-- Atomic execution of one instruction: on success the new record is
persisted, on a program error or panic the whole transaction aborts and the
record is unchanged. -/
def runOp (r : Race) (o : Op) : Race :=
  match o with
  | Op.join p2 =>
    match join_race r p2 with
    | TxOutcome.ok r2 => r2
    | _ => r
  | Op.submit p f c h =>
    match submit_result r p f c h with
    | TxOutcome.ok r2 => r2
    | _ => r
  | Op.settle =>
    match settle_race r with
    | TxOutcome.ok r2 => r2
    | _ => r
  | Op.claim w =>
    match claim_prize r w with
    | TxOutcome.ok (r2, _) => r2
    | _ => r

/-- The race states reachable from a create_race call through any sequence of
instructions. -/
inductive Reachable : Race → Prop where
  | created (race_id : String) (token_mint entry_fee_sol player1 : Nat)
      (now : Int) (bump : Nat) (r : Race) :
      create_race race_id token_mint entry_fee_sol player1 now bump =
        TxOutcome.ok r →
      Reachable r
  | stepped (r : Race) (o : Op) : Reachable r → Reachable (runOp r o)

/-- Numeric rank of a status along the Waiting → Active → Settled lifecycle. -/
def statusRank : RaceStatus → Nat
  | RaceStatus.Waiting => 0
  | RaceStatus.Active => 1
  | RaceStatus.Settled => 2

/-- The inductive state invariant of a race record: field values compatible
with each lifecycle stage, plus the special shape of self-joined races. -/
def RaceInv (r : Race) : Prop :=
  (r.status = RaceStatus.Waiting →
    r.player2 = none ∧ r.player1_result = none ∧ r.player2_result = none ∧
    r.winner = none ∧ r.escrow_amount = r.entry_fee_sol) ∧
  (r.status = RaceStatus.Active →
    r.player2.isSome ∧ r.winner = none ∧
    r.escrow_amount = 2 * r.entry_fee_sol) ∧
  (r.status = RaceStatus.Settled →
    r.player2.isSome ∧ r.winner.isSome ∧ r.player1_result.isSome ∧
    r.player2_result.isSome ∧
    (r.escrow_amount = 2 * r.entry_fee_sol ∨ r.escrow_amount = 0)) ∧
  (r.player2 = some r.player1 →
    r.status = RaceStatus.Active ∧ r.player2_result = none)

/-- A freshly created race satisfies the state invariant. -/
lemma raceInv_create (race_id : String) (token_mint entry_fee_sol player1 : Nat)
    (now : Int) (bump : Nat) (r : Race)
    (h : create_race race_id token_mint entry_fee_sol player1 now bump =
      TxOutcome.ok r) : RaceInv r := by
  simp only [create_race, TxOutcome.ok.injEq] at h
  subst h
  simp [RaceInv]

/-- A successful join preserves the state invariant. -/
lemma raceInv_join (r r2 : Race) (p2 : Nat) (hinv : RaceInv r)
    (h : join_race r p2 = TxOutcome.ok r2) : RaceInv r2 := by
  unfold join_race at h
  split at h
  case isTrue hw =>
    split at h
    case isTrue hp2 =>
      simp only [TxOutcome.ok.injEq] at h
      subst h
      obtain ⟨hWait, -, -, -⟩ := hinv
      obtain ⟨-, h1res, h2res, hwin, hesc⟩ := hWait hw
      refine ⟨?_, ?_, ?_, ?_⟩
      · intro hc; simp at hc
      · intro _
        exact ⟨rfl, hwin, by simp [hesc]; ring⟩
      · intro hc; simp at hc
      · intro _
        exact ⟨rfl, h2res⟩
    case isFalse => exact absurd h (by simp)
  case isFalse => exact absurd h (by simp)

/-- A successful result submission preserves the state invariant. -/
lemma raceInv_submit (r r2 : Race) (p f c : Nat) (ih : List Nat)
    (hinv : RaceInv r) (h : submit_result r p f c ih = TxOutcome.ok r2) :
    RaceInv r2 := by
  unfold submit_result at h
  split at h
  case isTrue hact =>
    split at h
    case isTrue hpart =>
      obtain ⟨hWait, hAct, hSet, hSelf⟩ := hinv
      obtain ⟨hp2some, hwin, hesc⟩ := hAct hact
      split at h
      case isTrue hp1 =>
        split at h
        case isTrue =>
          simp only [TxOutcome.ok.injEq] at h
          subst h
          refine ⟨?_, ?_, ?_, ?_⟩
          · intro hc; rw [hact] at hc; simp at hc
          · intro _; exact ⟨hp2some, hwin, hesc⟩
          · intro hc; rw [hact] at hc; simp at hc
          · intro hself; exact ⟨hact, (hSelf hself).2⟩
        case isFalse => exact absurd h (by simp)
      case isFalse hnp1 =>
        split at h
        case isTrue =>
          simp only [TxOutcome.ok.injEq] at h
          subst h
          refine ⟨?_, ?_, ?_, ?_⟩
          · intro hc; rw [hact] at hc; simp at hc
          · intro _; exact ⟨hp2some, hwin, hesc⟩
          · intro hc; rw [hact] at hc; simp at hc
          · intro hself
            exfalso
            apply hnp1
            simp only [is_player1, is_player2, hpart] at *
            rcases Bool.or_eq_true_iff.mp hpart with hc1 | hc2
            · exact hc1
            · simp only [is_player2, hself, Option.map_some, Option.getD_some] at hc2
              simpa [is_player1] using hc2
        case isFalse => exact absurd h (by simp)
    case isFalse => exact absurd h (by simp)
  case isFalse => exact absurd h (by simp)

/-- A successful settlement preserves the state invariant. -/
lemma raceInv_settle (r r2 : Race) (hinv : RaceInv r)
    (h : settle_race r = TxOutcome.ok r2) : RaceInv r2 := by
  obtain ⟨hWait, hAct, hSet, hSelf⟩ := hinv
  unfold settle_race at h
  split at h
  case isFalse => exact absurd h (by simp)
  case isTrue hact =>
  obtain ⟨hp2some, hwin, hesc⟩ := hAct hact
  obtain ⟨p2v, hp2⟩ := Option.isSome_iff_exists.mp hp2some
  cases hr1 : r.player1_result with
  | none => rw [hr1] at h; simp at h
  | some pr1 =>
  cases hr2 : r.player2_result with
  | none => rw [hr1, hr2] at h; simp at h
  | some pr2 =>
  rw [hr1, hr2, hp2] at h
  have key : ∀ w : Nat,
      RaceInv { r with player2 := some p2v, status := RaceStatus.Settled,
                       player1_result := some pr1, player2_result := some pr2,
                       winner := some w } := by
    intro w
    refine ⟨?_, ?_, ?_, ?_⟩
    · intro hc; simp at hc
    · intro hc; simp at hc
    · intro _
      exact ⟨by simp, by simp, by simp, by simp, Or.inl hesc⟩
    · intro hself
      simp only [Option.some.injEq] at hself
      have h2n := (hSelf (by rw [hp2, hself])).2
      rw [hr2] at h2n
      exact absurd h2n (by simp)
  simp only at h
  split at h
  case h_1 w heq =>
    simp only [TxOutcome.ok.injEq] at h
    subst h
    exact key w
  case h_2 heq => exact absurd h (by simp)

/-- A successful prize claim preserves the state invariant. -/
lemma raceInv_claim (r r2 : Race) (w amt : Nat) (hinv : RaceInv r)
    (h : claim_prize r w = TxOutcome.ok (r2, amt)) : RaceInv r2 := by
  unfold claim_prize at h
  split at h
  case isTrue hset =>
    split at h
    case isTrue hwin =>
      simp only [TxOutcome.ok.injEq, Prod.mk.injEq] at h
      obtain ⟨hr2, -⟩ := h
      subst hr2
      obtain ⟨hWait, hAct, hSet, hSelf⟩ := hinv
      obtain ⟨hp2some, hwinsome, h1some, h2some, -⟩ := hSet hset
      refine ⟨?_, ?_, ?_, ?_⟩
      · intro hc; rw [hset] at hc; simp at hc
      · intro hc; rw [hset] at hc; simp at hc
      · intro _; exact ⟨hp2some, hwinsome, h1some, h2some, Or.inr rfl⟩
      · intro hself
        exfalso
        have := (hSelf hself).1
        rw [hset] at this
        simp at this
    case isFalse => exact absurd h (by simp)
  case isFalse => exact absurd h (by simp)

/-- Executing any instruction preserves the state invariant. -/
lemma raceInv_runOp (r : Race) (o : Op) (hinv : RaceInv r) :
    RaceInv (runOp r o) := by
  cases o with
  | join p2 =>
    cases hj : join_race r p2 with
    | ok r2 => simpa [runOp, hj] using raceInv_join r r2 p2 hinv hj
    | err e => simpa [runOp, hj] using hinv
    | panicked => simpa [runOp, hj] using hinv
  | submit p f c ih =>
    cases hs : submit_result r p f c ih with
    | ok r2 => simpa [runOp, hs] using raceInv_submit r r2 p f c ih hinv hs
    | err e => simpa [runOp, hs] using hinv
    | panicked => simpa [runOp, hs] using hinv
  | settle =>
    cases hs : settle_race r with
    | ok r2 => simpa [runOp, hs] using raceInv_settle r r2 hinv hs
    | err e => simpa [runOp, hs] using hinv
    | panicked => simpa [runOp, hs] using hinv
  | claim w =>
    cases hc : claim_prize r w with
    | ok pr =>
      obtain ⟨r2, amt⟩ := pr
      simpa [runOp, hc] using raceInv_claim r r2 w amt hinv hc
    | err e => simpa [runOp, hc] using hinv
    | panicked => simpa [runOp, hc] using hinv

/-- Every reachable race state satisfies the invariant. -/
lemma reachable_raceInv (r : Race) (h : Reachable r) : RaceInv r := by
  induction h with
  | created race_id tm fee p1 now bump r hcr =>
    exact raceInv_create race_id tm fee p1 now bump r hcr
  | stepped r o _ ih => exact raceInv_runOp r o ih

/-- Characterisation of a successful join. -/
lemma join_race_ok (r r2 : Race) (p2 : Nat)
    (h : join_race r p2 = TxOutcome.ok r2) :
    r.status = RaceStatus.Waiting ∧ r.player2 = none ∧
    r2 = { r with player2 := some p2, status := RaceStatus.Active,
                  escrow_amount := r.escrow_amount + r.entry_fee_sol } := by
  unfold join_race at h
  split at h
  case isFalse => simp at h
  case isTrue hw =>
    split at h
    case isFalse => simp at h
    case isTrue hn =>
      simp only [TxOutcome.ok.injEq] at h
      exact ⟨hw, Option.isNone_iff_eq_none.mp hn, h.symm⟩

/-- A successful result submission starts from and keeps status Active, and
changes nothing but one result slot. -/
lemma submit_result_ok (r r2 : Race) (p f c : Nat) (ih : List Nat)
    (h : submit_result r p f c ih = TxOutcome.ok r2) :
    r.status = RaceStatus.Active ∧ r2.status = RaceStatus.Active ∧
    r2.escrow_amount = r.escrow_amount ∧ r2.player2 = r.player2 ∧
    r2.winner = r.winner := by
  unfold submit_result at h
  split at h
  case isFalse => simp at h
  case isTrue hact =>
    split at h
    case isFalse => simp at h
    case isTrue hpart =>
      split at h
      case isTrue hp1 =>
        split at h
        case isTrue hn =>
          simp only [TxOutcome.ok.injEq] at h
          subst h
          exact ⟨hact, hact, rfl, rfl, rfl⟩
        case isFalse => exact absurd h (by simp)
      case isFalse hp1 =>
        split at h
        case isTrue hn =>
          simp only [TxOutcome.ok.injEq] at h
          subst h
          exact ⟨hact, hact, rfl, rfl, rfl⟩
        case isFalse => exact absurd h (by simp)

/-- A successful settlement starts from Active and ends Settled. -/
lemma settle_race_ok (r r2 : Race) (h : settle_race r = TxOutcome.ok r2) :
    r.status = RaceStatus.Active ∧ r2.status = RaceStatus.Settled := by
  unfold settle_race at h
  split at h
  case isFalse => simp at h
  case isTrue hact =>
    cases hr1 : r.player1_result with
    | none => rw [hr1] at h; simp at h
    | some pr1 =>
    cases hr2 : r.player2_result with
    | none => rw [hr1, hr2] at h; simp at h
    | some pr2 =>
    rw [hr1, hr2] at h
    simp only at h
    split at h
    case h_2 => simp at h
    case h_1 w hw =>
      simp only [TxOutcome.ok.injEq] at h
      subst h
      exact ⟨hact, rfl⟩

/-- A successful claim starts from Settled and only zeroes the escrow. -/
lemma claim_prize_ok (r r2 : Race) (w amt : Nat)
    (h : claim_prize r w = TxOutcome.ok (r2, amt)) :
    r.status = RaceStatus.Settled ∧ r.winner = some w ∧
    amt = r.escrow_amount ∧ r2 = { r with escrow_amount := 0 } := by
  unfold claim_prize at h
  split at h
  case isFalse => simp at h
  case isTrue hset =>
    split at h
    case isFalse => simp at h
    case isTrue hwin =>
      simp only [TxOutcome.ok.injEq, Prod.mk.injEq] at h
      exact ⟨hset, hwin, h.2.symm, h.1.symm⟩

/-- C1: for an Active race with both result slots populated, settle_race sets
the winner to player1 on a strictly lower finish time, to player2 on a
strictly greater one, and on exactly equal finish times to player1 when
the coins_collected of player1 is at least that of player2, and to player2 otherwise; an
exact tie on both finish time and coins makes player1 the winner. -/
theorem settle_winner_rule (r : Race) (pr1 pr2 : RaceResult) (p2 : Nat)
    (hst : r.status = RaceStatus.Active)
    (h1 : r.player1_result = some pr1) (h2 : r.player2_result = some pr2)
    (hp2 : r.player2 = some p2) :
    (pr1.finish_time_ms < pr2.finish_time_ms →
      settle_race r = TxOutcome.ok
        { r with winner := some r.player1, status := RaceStatus.Settled }) ∧
    (pr2.finish_time_ms < pr1.finish_time_ms →
      settle_race r = TxOutcome.ok
        { r with winner := some p2, status := RaceStatus.Settled }) ∧
    (pr1.finish_time_ms = pr2.finish_time_ms →
      (pr1.coins_collected ≥ pr2.coins_collected →
        settle_race r = TxOutcome.ok
          { r with winner := some r.player1, status := RaceStatus.Settled }) ∧
      (pr1.coins_collected < pr2.coins_collected →
        settle_race r = TxOutcome.ok
          { r with winner := some p2, status := RaceStatus.Settled })) := by
  refine ⟨?_, ?_, ?_⟩
  · intro hlt
    simp [settle_race, hst, h1, h2, hp2, hlt]
  · intro hgt
    have hnlt : ¬ pr1.finish_time_ms < pr2.finish_time_ms := lt_asymm hgt
    simp [settle_race, hst, h1, h2, hp2, hgt, hnlt]
  · intro heq
    constructor
    · intro hge
      simp [settle_race, hst, h1, h2, hp2, heq, lt_irrefl, hge]
    · intro hlt2
      have hnge : ¬ pr1.coins_collected ≥ pr2.coins_collected :=
        not_le.mpr hlt2
      simp [settle_race, hst, h1, h2, hp2, heq, lt_irrefl, hnge]

/-- C4: settling an Active race with a missing result slot fails with
ResultsNotComplete, settling an already Settled race fails with
InvalidRaceStatus, and in both cases the record (hence winner and status) is
unchanged. -/
theorem settle_race_error_spec (r : Race) :
    (r.status = RaceStatus.Active →
      r.player1_result = none ∨ r.player2_result = none →
      settle_race r = TxOutcome.err SolracerError.ResultsNotComplete ∧
      runOp r Op.settle = r) ∧
    (r.status = RaceStatus.Settled →
      settle_race r = TxOutcome.err SolracerError.InvalidRaceStatus ∧
      runOp r Op.settle = r) := by
  constructor
  · intro hact hmiss
    have hres : settle_race r = TxOutcome.err SolracerError.ResultsNotComplete := by
      unfold settle_race
      rw [hact]
      rcases hmiss with hm1 | hm2
      · rw [hm1]; simp
      · rw [hm2]
        rcases r.player1_result with _ | pr1 <;> simp
    exact ⟨hres, by simp [runOp, hres]⟩
  · intro hset
    have hres : settle_race r = TxOutcome.err SolracerError.InvalidRaceStatus := by
      unfold settle_race
      rw [hset]
      simp
    exact ⟨hres, by simp [runOp, hres]⟩

/-- C2: along every operation sequence from create_race, the escrow equals the
entry fee while Waiting, exactly twice the entry fee while Active, twice the
entry fee or zero once Settled (the zero case arising exactly from a
successful claim, which pays out the whole escrow and zeroes it), and is never
negative. -/
theorem escrow_lifecycle (r : Race) (h : Reachable r) :
    0 ≤ r.escrow_amount ∧
    (r.status = RaceStatus.Waiting → r.escrow_amount = r.entry_fee_sol) ∧
    (r.status = RaceStatus.Active → r.escrow_amount = 2 * r.entry_fee_sol) ∧
    (r.status = RaceStatus.Settled →
      r.escrow_amount = 2 * r.entry_fee_sol ∨ r.escrow_amount = 0) ∧
    (∀ c r2 amt, claim_prize r c = TxOutcome.ok (r2, amt) →
      amt = r.escrow_amount ∧ r2.escrow_amount = 0) := by
  obtain ⟨hWait, hAct, hSet, -⟩ := reachable_raceInv r h
  refine ⟨Nat.zero_le _, ?_, ?_, ?_, ?_⟩
  · intro hw; exact (hWait hw).2.2.2.2
  · intro ha; exact (hAct ha).2.2
  · intro hs; exact (hSet hs).2.2.2.2
  · intro c r2 amt hc
    obtain ⟨-, -, hamt, hr2⟩ := claim_prize_ok r r2 c amt hc
    exact ⟨hamt, by rw [hr2]⟩

/-- C3: claim_prize succeeds exactly when the race is Settled and the caller
is the stored winner; a wrong status fails with InvalidRaceStatus and a wrong
caller with NotWinner, leaving the record unchanged; a successful claim pays
out the full escrow and zeroes it, so a repeated claim pays zero. -/
theorem claim_prize_spec (r : Race) (c : Nat) :
    ((∃ r2 amt, claim_prize r c = TxOutcome.ok (r2, amt)) ↔
      r.status = RaceStatus.Settled ∧ r.winner = some c) ∧
    (r.status ≠ RaceStatus.Settled →
      claim_prize r c = TxOutcome.err SolracerError.InvalidRaceStatus ∧
      runOp r (Op.claim c) = r) ∧
    (r.status = RaceStatus.Settled → r.winner ≠ some c →
      claim_prize r c = TxOutcome.err SolracerError.NotWinner ∧
      runOp r (Op.claim c) = r) ∧
    (∀ r2 amt, claim_prize r c = TxOutcome.ok (r2, amt) →
      amt = r.escrow_amount ∧ r2 = { r with escrow_amount := 0 } ∧
      ∀ r3 amt2, claim_prize r2 c = TxOutcome.ok (r3, amt2) → amt2 = 0) := by
  refine ⟨⟨?_, ?_⟩, ?_, ?_, ?_⟩
  · rintro ⟨r2, amt, hok⟩
    obtain ⟨hset, hwin, -, -⟩ := claim_prize_ok r r2 c amt hok
    exact ⟨hset, hwin⟩
  · rintro ⟨hset, hwin⟩
    refine ⟨{ r with escrow_amount := 0 }, r.escrow_amount, ?_⟩
    simp [claim_prize, hset, hwin]
  · intro hset
    have hres : claim_prize r c = TxOutcome.err SolracerError.InvalidRaceStatus := by
      simp [claim_prize, hset]
    exact ⟨hres, by simp [runOp, hres]⟩
  · intro hset hwin
    have hres : claim_prize r c = TxOutcome.err SolracerError.NotWinner := by
      simp [claim_prize, hset, hwin]
    exact ⟨hres, by simp [runOp, hres]⟩
  · intro r2 amt hok
    obtain ⟨hset, hwin, hamt, hr2⟩ := claim_prize_ok r r2 c amt hok
    refine ⟨hamt, hr2, ?_⟩
    intro r3 amt2 hok2
    obtain ⟨-, -, hamt2, -⟩ := claim_prize_ok r2 r3 c amt2 hok2
    rw [hamt2, hr2]

/-- C5: submit_result succeeds exactly for an Active race when the caller is a
participant whose slot (the player1 slot when the caller is player1, else
the player2 slot) is empty, storing the submitted result there and leaving the escrow
untouched; it fails with InvalidRaceStatus when not Active, PlayerNotInRace
when the caller is neither participant, and ResultAlreadySubmitted when the
slot is populated, leaving the record unchanged on every failure. -/
theorem submit_result_spec (r : Race) (p f c : Nat) (ih : List Nat) :
    (r.status ≠ RaceStatus.Active →
      submit_result r p f c ih = TxOutcome.err SolracerError.InvalidRaceStatus ∧
      runOp r (Op.submit p f c ih) = r) ∧
    (r.status = RaceStatus.Active →
      is_player1 r p = false → is_player2 r p = false →
      submit_result r p f c ih = TxOutcome.err SolracerError.PlayerNotInRace ∧
      runOp r (Op.submit p f c ih) = r) ∧
    (r.status = RaceStatus.Active → is_player1 r p = true →
      r.player1_result = none →
      submit_result r p f c ih = TxOutcome.ok
        { r with player1_result := some (RaceResult.mk f c ih) }) ∧
    (r.status = RaceStatus.Active → is_player1 r p = true →
      r.player1_result ≠ none →
      submit_result r p f c ih =
        TxOutcome.err SolracerError.ResultAlreadySubmitted ∧
      runOp r (Op.submit p f c ih) = r) ∧
    (r.status = RaceStatus.Active → is_player1 r p = false →
      is_player2 r p = true → r.player2_result = none →
      submit_result r p f c ih = TxOutcome.ok
        { r with player2_result := some (RaceResult.mk f c ih) }) ∧
    (r.status = RaceStatus.Active → is_player1 r p = false →
      is_player2 r p = true → r.player2_result ≠ none →
      submit_result r p f c ih =
        TxOutcome.err SolracerError.ResultAlreadySubmitted ∧
      runOp r (Op.submit p f c ih) = r) := by
  refine ⟨?_, ?_, ?_, ?_, ?_, ?_⟩
  · intro hna
    have hres : submit_result r p f c ih =
        TxOutcome.err SolracerError.InvalidRaceStatus := by
      simp [submit_result, hna]
    exact ⟨hres, by simp [runOp, hres]⟩
  · intro hact hn1 hn2
    have hres : submit_result r p f c ih =
        TxOutcome.err SolracerError.PlayerNotInRace := by
      simp [submit_result, hact, hn1, hn2]
    exact ⟨hres, by simp [runOp, hres]⟩
  · intro hact hp1 hslot
    simp [submit_result, hact, hp1, hslot]
  · intro hact hp1 hslot
    have hres : submit_result r p f c ih =
        TxOutcome.err SolracerError.ResultAlreadySubmitted := by
      simp [submit_result, hact, hp1,
        Option.isNone_iff_eq_none, hslot]
    exact ⟨hres, by simp [runOp, hres]⟩
  · intro hact hp1 hp2 hslot
    simp [submit_result, hact, hp1, hp2, hslot]
  · intro hact hp1 hp2 hslot
    have hres : submit_result r p f c ih =
        TxOutcome.err SolracerError.ResultAlreadySubmitted := by
      simp [submit_result, hact, hp1, hp2,
        Option.isNone_iff_eq_none, hslot]
    exact ⟨hres, by simp [runOp, hres]⟩

/-- C6: status is monotone along Waiting → Active → Settled under every
instruction, and no single instruction takes a Waiting race to Settled. -/
theorem status_monotone (r : Race) (o : Op) :
    statusRank r.status ≤ statusRank (runOp r o).status ∧
    (r.status = RaceStatus.Waiting →
      (runOp r o).status ≠ RaceStatus.Settled) := by
  cases o with
  | join p2 =>
    cases hj : join_race r p2 with
    | ok r2 =>
      obtain ⟨hw, -, hr2⟩ := join_race_ok r r2 p2 hj
      constructor
      · simp [runOp, hj, hr2, hw, statusRank]
      · intro _; simp [runOp, hj, hr2]
    | err e =>
      refine ⟨by simp [runOp, hj], ?_⟩
      intro hw
      simp [runOp, hj, hw]
    | panicked =>
      refine ⟨by simp [runOp, hj], ?_⟩
      intro hw
      simp [runOp, hj, hw]
  | submit p f c ih =>
    cases hs : submit_result r p f c ih with
    | ok r2 =>
      obtain ⟨hact, hact2, -, -, -⟩ := submit_result_ok r r2 p f c ih hs
      constructor
      · simp [runOp, hs, hact, hact2]
      · intro hw; rw [hw] at hact; simp at hact
    | err e =>
      refine ⟨by simp [runOp, hs], ?_⟩
      intro hw
      simp [runOp, hs, hw]
    | panicked =>
      refine ⟨by simp [runOp, hs], ?_⟩
      intro hw
      simp [runOp, hs, hw]
  | settle =>
    cases hs : settle_race r with
    | ok r2 =>
      obtain ⟨hact, hset⟩ := settle_race_ok r r2 hs
      constructor
      · simp [runOp, hs, hact, hset, statusRank]
      · intro hw; rw [hw] at hact; simp at hact
    | err e =>
      refine ⟨by simp [runOp, hs], ?_⟩
      intro hw
      simp [runOp, hs, hw]
    | panicked =>
      refine ⟨by simp [runOp, hs], ?_⟩
      intro hw
      simp [runOp, hs, hw]
  | claim w =>
    cases hc : claim_prize r w with
    | ok pr =>
      obtain ⟨r2, amt⟩ := pr
      obtain ⟨hset, -, -, hr2⟩ := claim_prize_ok r r2 w amt hc
      constructor
      · simp [runOp, hc, hr2, hset]
      · intro hw; rw [hw] at hset; simp at hset
    | err e =>
      refine ⟨by simp [runOp, hc], ?_⟩
      intro hw
      simp [runOp, hc, hw]
    | panicked =>
      refine ⟨by simp [runOp, hc], ?_⟩
      intro hw
      simp [runOp, hc, hw]

/-- C7 counterexample: create_race performs no entry-fee validation, so a call
with entry fee 0 succeeds and creates a race record, refuting the claim that
such a call fails. -/
theorem create_race_zero_fee_succeeds :
    create_race "race1" 3 0 7 5 254 = TxOutcome.ok
      { race_id := "race1", token_mint := 3, entry_fee_sol := 0, player1 := 7,
        player2 := none, status := RaceStatus.Waiting, player1_result := none,
        player2_result := none, winner := none, escrow_amount := 0,
        created_at := 5, bump := 254 } := rfl

/-- C7 amended: create_race performs no validation of the entry fee; a call
with entry fee 0 succeeds and creates the race record with escrow_amount 0 and
status Waiting. -/
theorem create_race_no_fee_validation (race_id : String)
    (token_mint player1 : Nat) (now : Int) (bump : Nat) :
    create_race race_id token_mint 0 player1 now bump = TxOutcome.ok
      { race_id := race_id, token_mint := token_mint, entry_fee_sol := 0,
        player1 := player1, player2 := none, status := RaceStatus.Waiting,
        player1_result := none, player2_result := none, winner := none,
        escrow_amount := 0, created_at := now, bump := bump } := rfl

/-- C8: a Waiting race with no second participant can be joined by its own
creator: the join succeeds, records player1 as player2, activates the race and
doubles the escrow. -/
theorem self_join_allowed (r : Race) (h : Reachable r)
    (hw : r.status = RaceStatus.Waiting) (hp2 : r.player2 = none) :
    join_race r r.player1 = TxOutcome.ok
      { r with player2 := some r.player1, status := RaceStatus.Active,
               escrow_amount := 2 * r.entry_fee_sol } := by
  obtain ⟨hWait, -, -, -⟩ := reachable_raceInv r h
  have hesc : r.escrow_amount = r.entry_fee_sol := (hWait hw).2.2.2.2
  have : r.escrow_amount + r.entry_fee_sol = 2 * r.entry_fee_sol := by
    rw [hesc]; ring
  simp [join_race, hw, hp2, this]

/-- C9: in every reachable state, status Waiting coincides with player2 being
absent, so the Player2AlreadySet branch of join_race is unreachable and the
player2.unwrap() calls in settle_race can never panic. -/
theorem player2_presence (r : Race) (h : Reachable r) :
    (r.status = RaceStatus.Waiting → r.player2 = none) ∧
    (r.status ≠ RaceStatus.Waiting → r.player2.isSome = true) ∧
    (∀ c, join_race r c ≠ TxOutcome.err SolracerError.Player2AlreadySet) ∧
    settle_race r ≠ TxOutcome.panicked := by
  obtain ⟨hWait, hAct, hSet, -⟩ := reachable_raceInv r h
  refine ⟨?_, ?_, ?_, ?_⟩
  · intro hw; exact (hWait hw).1
  · intro hnw
    cases hst : r.status with
    | Waiting => exact absurd hst hnw
    | Active => exact (hAct hst).1
    | Settled => exact (hSet hst).1
  · intro c hcon
    unfold join_race at hcon
    split at hcon
    case isTrue hw =>
      split at hcon
      case isTrue => simp at hcon
      case isFalse hn =>
        rw [(hWait hw).1] at hn
        simp at hn
    case isFalse => simp at hcon
  · intro hcon
    unfold settle_race at hcon
    split at hcon
    case isFalse => simp at hcon
    case isTrue hact =>
      obtain ⟨hp2some, -, -⟩ := hAct hact
      obtain ⟨p2v, hp2⟩ := Option.isSome_iff_exists.mp hp2some
      cases hr1 : r.player1_result with
      | none => rw [hr1] at hcon; simp at hcon
      | some pr1 =>
      cases hr2 : r.player2_result with
      | none => rw [hr1, hr2] at hcon; simp at hcon
      | some pr2 =>
      rw [hr1, hr2, hp2] at hcon
      simp only at hcon
      split at hcon
      case h_1 w hw => simp at hcon
      case h_2 hnone =>
        repeat' split at hnone
        all_goals simp at hnone

/-- C10: in a reachable self-joined race (player2 equal to player1) every
successful submission is by player1 and fills the player1 slot, the player2 slot
stays empty, a repeated submission fails with ResultAlreadySubmitted, settling
always fails with ResultsNotComplete, and claiming always fails with
InvalidRaceStatus, so the escrow can never be released. -/
theorem self_joined_race_stuck (r : Race) (h : Reachable r)
    (hself : r.player2 = some r.player1) :
    r.status = RaceStatus.Active ∧
    r.player2_result = none ∧
    (∀ p f c ih r2, submit_result r p f c ih = TxOutcome.ok r2 →
      p = r.player1 ∧
      r2.player1_result = some (RaceResult.mk f c ih) ∧
      r2.player2_result = none) ∧
    (r.player1_result ≠ none → ∀ f c ih,
      submit_result r r.player1 f c ih =
        TxOutcome.err SolracerError.ResultAlreadySubmitted) ∧
    settle_race r = TxOutcome.err SolracerError.ResultsNotComplete ∧
    (∀ c2, claim_prize r c2 = TxOutcome.err SolracerError.InvalidRaceStatus) := by
  obtain ⟨hWait, hAct, hSet, hSelf⟩ := reachable_raceInv r h
  obtain ⟨hact, h2res⟩ := hSelf hself
  refine ⟨hact, h2res, ?_, ?_, ?_, ?_⟩
  · intro p f c ih r2 hok
    have hp : p = r.player1 := by
      have hok2 := hok
      unfold submit_result at hok2
      rw [if_pos hact] at hok2
      split at hok2
      case isFalse => exact absurd hok2 (by simp)
      case isTrue hpart =>
        rcases Bool.or_eq_true_iff.mp hpart with hb | hb
        · simpa [is_player1] using hb
        · simp [is_player2, hself] at hb
          exact hb
    subst hp
    cases hr1 : r.player1_result with
    | some pr =>
      have hbad : submit_result r r.player1 f c ih =
          TxOutcome.err SolracerError.ResultAlreadySubmitted := by
        simp [submit_result, hact, is_player1, hr1]
      rw [hbad] at hok
      exact absurd hok (by simp)
    | none =>
      have heq : submit_result r r.player1 f c ih = TxOutcome.ok
          { r with player1_result := some (RaceResult.mk f c ih) } := by
        simp [submit_result, hact, is_player1, hr1]
      rw [heq] at hok
      simp only [TxOutcome.ok.injEq] at hok
      subst hok
      exact ⟨rfl, rfl, h2res⟩
  · intro hne f c ih
    cases hr1 : r.player1_result with
    | none => exact absurd hr1 hne
    | some pr => simp [submit_result, hact, is_player1, hr1]
  · cases hr1 : r.player1_result <;> simp [settle_race, hact, h2res, hr1]
  · intro c2
    simp [claim_prize, hact]

/-- A concrete freshly created race: fee 1000 lamports, creator 7. -/
def rEx0 : Race :=
  { race_id := "race1", token_mint := 3, entry_fee_sol := 1000, player1 := 7,
    player2 := none, status := RaceStatus.Waiting, player1_result := none,
    player2_result := none, winner := none, escrow_amount := 1000,
    created_at := 5, bump := 254 }

/-- rEx0 is the record created by create_race. -/
lemma reachable_rEx0 : Reachable rEx0 :=
  Reachable.created "race1" 3 1000 7 5 254 rEx0 rfl

/-- The concrete race after player 9 joins rEx0. -/
def rEx1 : Race := runOp rEx0 (Op.join 9)

/-- rEx1 is reachable. -/
lemma reachable_rEx1 : Reachable rEx1 :=
  Reachable.stepped rEx0 (Op.join 9) reachable_rEx0

/-- A concrete Active race whose two results tie exactly on finish time and
coins. -/
def rTie : Race :=
  { rEx0 with
    status := RaceStatus.Active
    player2 := some 9
    escrow_amount := 2000
    player1_result := some (RaceResult.mk 100 5 [1])
    player2_result := some (RaceResult.mk 100 5 [2]) }

/-- A concrete Settled race with winner 7. -/
def rSet : Race :=
  { rTie with status := RaceStatus.Settled, winner := some 7 }

/-- The concrete race after creator 7 joins its own race rEx0. -/
def rSelf : Race := runOp rEx0 (Op.join 7)

/-- Witness for C1 at the exact-tie input: both results 100 ms and 5 coins,
player1 (key 7) wins. -/
theorem settle_winner_rule_witness :
    settle_race rTie = TxOutcome.ok
      { rTie with winner := some rTie.player1,
                  status := RaceStatus.Settled } :=
  ((settle_winner_rule rTie (RaceResult.mk 100 5 [1]) (RaceResult.mk 100 5 [2])
      9 rfl rfl rfl rfl).2.2 rfl).1 (by decide)

/-- Witness for C2 at the concrete joined race: escrow is twice the fee. -/
theorem escrow_lifecycle_witness :
    rEx1.escrow_amount = 2 * rEx1.entry_fee_sol :=
  (escrow_lifecycle rEx1 reachable_rEx1).2.2.1 (by decide)

/-- Witness for C3: a non-winner claim on the concrete settled race fails with
NotWinner and changes nothing. -/
theorem claim_prize_spec_witness :
    claim_prize rSet 9 = TxOutcome.err SolracerError.NotWinner ∧
    runOp rSet (Op.claim 9) = rSet :=
  (claim_prize_spec rSet 9).2.2.1 rfl (by decide)

/-- Witness for C4: settling the concrete Active race with no results fails
with ResultsNotComplete and changes nothing. -/
theorem settle_race_error_spec_witness :
    settle_race rEx1 = TxOutcome.err SolracerError.ResultsNotComplete ∧
    runOp rEx1 Op.settle = rEx1 :=
  (settle_race_error_spec rEx1).1 (by decide) (Or.inl (by decide))

/-- Witness for C5: player 7 submits a result to the concrete Active race and
it is stored in the player1 slot. -/
theorem submit_result_spec_witness :
    submit_result rEx1 7 100 5 [1] = TxOutcome.ok
      { rEx1 with player1_result := some (RaceResult.mk 100 5 [1]) } :=
  (submit_result_spec rEx1 7 100 5 [1]).2.2.1 (by decide) (by decide) (by decide)

/-- Witness for C6: the join on the concrete Waiting race does not reach
Settled. -/
theorem status_monotone_witness :
    (runOp rEx0 (Op.join 9)).status ≠ RaceStatus.Settled :=
  (status_monotone rEx0 (Op.join 9)).2 rfl

/-- Witness for C8: the creator (key 7) joins its own race rEx0. -/
theorem self_join_allowed_witness :
    join_race rEx0 7 = TxOutcome.ok
      { rEx0 with player2 := some 7, status := RaceStatus.Active,
                  escrow_amount := 2 * rEx0.entry_fee_sol } :=
  self_join_allowed rEx0 reachable_rEx0 rfl rfl

/-- Witness for C9 at the concrete joined race: player2 is present. -/
theorem player2_presence_witness : rEx1.player2.isSome = true :=
  (player2_presence rEx1 reachable_rEx1).2.1 (by decide)

/-- Witness for C10 at the concrete self-joined race: settling and claiming
both fail. -/
theorem self_joined_race_stuck_witness :
    settle_race rSelf = TxOutcome.err SolracerError.ResultsNotComplete ∧
    claim_prize rSelf 7 = TxOutcome.err SolracerError.InvalidRaceStatus :=
  have h := self_joined_race_stuck rSelf
    (Reachable.stepped rEx0 (Op.join 7) reachable_rEx0) (by decide)
  ⟨h.2.2.2.2.1, h.2.2.2.2.2 7⟩

end Solracer
